import Mathlib

/-!
Verification development for the Project Analysis Engine implemented in
`python_project_mcp.py`.

The engine is shallowly embedded: file contents are Lean `String`s, the
filesystem is an explicit tree of entries, byte sizes are `Nat` fields
(mirroring `stat().st_size`), Python exceptions become `Except` values, and
the single mutable `root_directory` becomes an explicit `Option` value that
is threaded through every operation.  Python string primitives that the code
relies on (`str.strip`, `str.split`, `str.lower`, `in`, `startswith`,
`endswith`) are modelled character-by-character over ASCII text.
-/

/-! ## Python string primitives -/

/-- Whitespace characters recognised by `str.strip` / `str.split` (ASCII part
of Python's whitespace set). -/
def pyIsSpace (c : Char) : Bool :=
  c = ' ' || c = '\t' || c = '\n' || c = '\r' || c = '\x0b' || c = '\x0c'

/-- Strip leading and trailing whitespace from a character list
(`str.strip`). -/
def pyStripL (l : List Char) : List Char :=
  ((l.dropWhile pyIsSpace).reverse.dropWhile pyIsSpace).reverse

/-- Python `str.strip()`. -/
def pyStrip (s : String) : String := (pyStripL s.toList).asString

/-- Split a character list on a separator character, keeping empty pieces —
the semantics of Python `str.split(sep)` for a single-character separator. -/
def splitCh (sep : Char) : List Char → List (List Char)
  | [] => [[]]
  | c :: rest =>
    let r := splitCh sep rest
    if c = sep then [] :: r
    else
      match r with
      | [] => [[c]]
      | x :: xs => (c :: x) :: xs

/-- Python `content.split('\n')`. -/
def pyLines (s : String) : List String := (splitCh '\n' s.toList).map List.asString

/-- Does the second list start with the first one?  (Helper for
`str.startswith`.) -/
def listLeads : List Char → List Char → Bool
  | [], _ => true
  | _ :: _, [] => false
  | p :: ps, c :: cs => p = c && listLeads ps cs

/-- Python `s.startswith(t)`. -/
def pyStartsWith (s t : String) : Bool := listLeads t.toList s.toList

/-- Python `s.endswith(t)`. -/
def pyEndsWith (s t : String) : Bool := listLeads t.toList.reverse s.toList.reverse

/-- Python `s.lower()` (ASCII case folding). -/
def pyLower (s : String) : String := (s.toList.map Char.toLower).asString

/-- Substring test: Python `q in s`. -/
def containsSubL (s q : List Char) : Bool :=
  if listLeads q s then true
  else
    match s with
    | [] => false
    | _ :: rest => containsSubL rest q

/-- Python `q in s` on strings. -/
def containsSub (s q : String) : Bool := containsSubL s.toList q.toList

/-- First whitespace-delimited token of an already stripped, non-blank line:
Python `line.split()[0]`. -/
def firstTok (s : String) : String :=
  (s.toList.takeWhile (fun c => !pyIsSpace c)).asString

/-- Prefix of `s` before the first occurrence of the (non-empty) separator
`sep`: Python `s.split(sep)[0]`.  Implemented by scanning for the first
position where `sep` starts. -/
def cutAtL (sep : List Char) : List Char → List Char
  | [] => []
  | c :: rest => if listLeads sep (c :: rest) then [] else c :: cutAtL sep rest

/-- Python `s.split(sep)[0]` for a non-empty separator string. -/
def cutAt (s sep : String) : String := (cutAtL sep.toList s.toList).asString

/-- Strip the characters of `set` from both ends of a list — Python
`str.strip(set)`. -/
def pyStripCharsL (set : List Char) (l : List Char) : List Char :=
  ((l.dropWhile (set.contains ·)).reverse.dropWhile (set.contains ·)).reverse

/-- Python `s.strip(chars)`. -/
def pyStripChars (s : String) (set : List Char) : String :=
  (pyStripCharsL set s.toList).asString

/-! ## Configured constants (module-level constants of the source) -/

/-- Source-file extensions (`PYTHON_EXTENSIONS`). -/
def PYTHON_EXTENSIONS : List String := [".py", ".pyx", ".pyi"]

/-- Configuration-file extensions (`CONFIG_EXTENSIONS`). -/
def CONFIG_EXTENSIONS : List String := [".toml", ".cfg", ".ini", ".yaml", ".yml", ".json"]

/-- Documentation-file extensions (`DOC_EXTENSIONS`). -/
def DOC_EXTENSIONS : List String := [".md", ".rst", ".txt"]

/-- Recognised manifest file names (`REQUIREMENTS_FILES`). -/
def REQUIREMENTS_FILES : List String :=
  ["requirements.txt", "requirements-dev.txt", "pyproject.toml", "setup.py", "setup.cfg", "Pipfile"]

/-- Excluded directory names (`EXCLUDE_DIRS`). -/
def EXCLUDE_DIRS : List String :=
  ["__pycache__", ".git", ".svn", ".hg", ".bzr",
   ".tox", ".pytest_cache", ".mypy_cache", ".coverage",
   "node_modules", ".venv", "venv", "env", ".env",
   "build", "dist", ".egg-info", ".eggs", "htmlcov"]

/-- Maximum readable file size in bytes (`MAX_FILE_SIZE = 1024 * 1024`). -/
def MAX_FILE_SIZE : Nat := 1024 * 1024

/-! ## `_parse_requirements_txt` (ManifestParser, line-list format) -/

/-- Embedding of `_parse_requirements_txt` applied to already-read file text:
every line is stripped; non-blank lines that do not start with `#` or `-`
contribute `line.split()[0]` to the accumulating list. -/
def parseRequirementsTxt (content : String) : List String :=
  (pyLines content).foldl
    (fun deps line =>
      let l := pyStrip line
      if l != "" && !pyStartsWith l "#" && !pyStartsWith l "-" then
        deps ++ [firstTok l]
      else deps)
    []

/-- Per-line contribution of the `_parse_requirements_txt` loop. -/
def reqLineDep (line : String) : Option String :=
  let l := pyStrip line
  if l != "" && !pyStartsWith l "#" && !pyStartsWith l "-" then some (firstTok l) else none

theorem foldl_append_eq_filterMap {α β : Type} (g : α → Option β) :
    ∀ (lines : List α) (acc : List β),
      lines.foldl (fun d x => (g x).elim d (fun y => d ++ [y])) acc =
        acc ++ lines.filterMap g := by
  intro lines
  induction lines with
  | nil => intro acc; simp
  | cons x xs ih =>
    intro acc
    simp only [List.foldl_cons, List.filterMap_cons]
    cases h : g x with
    | none => simpa [h] using ih acc
    | some y => simp [h, ih (acc ++ [y])]

theorem parseRequirementsTxt_eq_filterMap (content : String) :
    parseRequirementsTxt content = (pyLines content).filterMap reqLineDep := by
  have hf : (fun (deps : List String) (line : String) =>
      let l := pyStrip line
      if l != "" && !pyStartsWith l "#" && !pyStartsWith l "-" then
        deps ++ [firstTok l]
      else deps) =
      (fun (d : List String) (x : String) =>
        (reqLineDep x).elim d (fun y => d ++ [y])) := by
    funext d x
    simp only [reqLineDep]
    split <;> rfl
  rw [parseRequirementsTxt, hf]
  simpa using foldl_append_eq_filterMap reqLineDep (pyLines content) []

/-- C1: the claim as written is false on the code.  On the manifest
containing a comment line, an option line, `requests>=2.0` and blank lines,
`_parse_requirements_txt` keeps the whole first whitespace-delimited token
`requests>=2.0`; it does not strip the version constraint, so the result is
not `["requests"]`. -/
theorem C1_counterexample :
    parseRequirementsTxt "# comment\n-r other.txt\nrequests>=2.0\n\n" = ["requests>=2.0"] ∧
    parseRequirementsTxt "# comment\n-r other.txt\nrequests>=2.0\n\n" ≠ ["requests"] := by
  exact ⟨rfl, by decide⟩

/-- C1 (amended): line-list parsing skips blank lines and lines starting
with `#` or `-`, each remaining line contributes its first
whitespace-delimited token unchanged (no version-constraint stripping), and
the manifest of the claim therefore yields exactly `["requests>=2.0"]`. -/
theorem C1_lineList_firstToken :
    (∀ content, parseRequirementsTxt content = (pyLines content).filterMap reqLineDep) ∧
    reqLineDep "# comment" = none ∧
    reqLineDep "-r other.txt" = none ∧
    reqLineDep "   " = none ∧
    reqLineDep "requests>=2.0" = some "requests>=2.0" ∧
    parseRequirementsTxt "# comment\n-r other.txt\nrequests>=2.0\n\n" = ["requests>=2.0"] :=
  ⟨parseRequirementsTxt_eq_filterMap, rfl, rfl, rfl, rfl, rfl⟩

/-! ## Filesystem model -/

/-- Stat data and decoded text of a regular file: `size` mirrors
`stat().st_size` (bytes), `content` the text produced by the reader's
encoding fallback. -/
structure FileData where
  size : Nat
  content : String
deriving DecidableEq, Repr

/-- A directory entry: a regular file (with stat size and decoded text) or a
subdirectory with its children, in directory-iteration order. -/
inductive Entry where
  | file (name : String) (size : Nat) (content : String)
  | dir (name : String) (children : List Entry)

/-- Name of an entry. -/
def Entry.name : Entry → String
  | .file n _ _ => n
  | .dir n _ => n

/-- Python `Path.is_file()` on an entry. -/
def Entry.isFile : Entry → Bool
  | .file _ _ _ => true
  | .dir _ _ => false

/-- Python `Path.is_dir()` on an entry. -/
def Entry.isDir : Entry → Bool
  | .file _ _ _ => false
  | .dir _ _ => true

/-- A filesystem path as its list of components (below the filesystem root
`/`). -/
abbrev FsPath := List String

/-- Find the child of a directory with a given name. -/
def findEntry (es : List Entry) (n : String) : Option Entry :=
  es.find? (fun e => e.name == n)

/-- Resolve a path to a directory's children. -/
def lookupDir (es : List Entry) : FsPath → Option (List Entry)
  | [] => some es
  | n :: rest =>
    match findEntry es n with
    | some (.dir _ cs) => lookupDir cs rest
    | _ => none

/-- Resolve a path to a regular file's data. -/
def lookupFile (es : List Entry) : FsPath → Option FileData
  | [] => none
  | [n] =>
    match findEntry es n with
    | some (.file _ sz c) => some ⟨sz, c⟩
    | _ => none
  | n :: rest =>
    match findEntry es n with
    | some (.dir _ cs) => lookupFile cs rest
    | _ => none

/-- Python `Path.exists()`: the path resolves to a file or a directory. -/
def pathExists (es : List Entry) (p : FsPath) : Bool :=
  (lookupFile es p).isSome || (lookupDir es p).isSome

/-- Render an absolute path the way `str(Path)` does. -/
def joinAbs (p : FsPath) : String := "/" ++ String.intercalate "/" p

/-- Render a root-relative path the way `str(Path)` does. -/
def joinRel (p : FsPath) : String :=
  match p with
  | [] => "."
  | _ => String.intercalate "/" p

/-! ## `_format_file_size`

The Python loop repeatedly divides the size by 1024 in floating point and
prints the first value below 1024 with one decimal (`:.1f`, correctly
rounded, ties to even).  Because division by 1024 is exact in binary
floating point for these magnitudes, the current value after `k` divisions
is exactly `sizeBytes / 1024^k`; the model tracks that rational as the pair
`(sizeBytes, k)` and performs the rounding with integer arithmetic. -/

/-- Format `n10 / d` (a scaled-by-ten value) with Python `:.1f` semantics:
round half to even to an integer number of tenths, print as `w.f`. -/
def fmtOneDecimal (n10 d : Nat) : String :=
  let q := n10 / d
  let r := n10 % d
  let t := if 2 * r < d then q else if d < 2 * r then q + 1 else if q % 2 = 0 then q else q + 1
  toString (t / 10) ++ "." ++ toString (t % 10)

/-- The unit loop of `_format_file_size`: the current value is
`sizeBytes / 1024^k`. -/
def formatSizeLoop (sizeBytes : Nat) : Nat → List String → String
  | k, [] => fmtOneDecimal (10 * sizeBytes) (1024 ^ k) ++ "TB"
  | k, u :: us =>
    if sizeBytes < 1024 ^ (k + 1) then fmtOneDecimal (10 * sizeBytes) (1024 ^ k) ++ u
    else formatSizeLoop sizeBytes (k + 1) us

/-- Embedding of `_format_file_size`. -/
def formatFileSize (sizeBytes : Nat) : String :=
  formatSizeLoop sizeBytes 0 ["B", "KB", "MB", "GB"]

/-! ## `_read_file_content` (SafeFileReader) -/

/-- Failure modes of `_read_file_content`: `FileNotFoundError`, the
`ValueError` raised for oversized files (carrying the observed size), and
the `IsADirectoryError` that `open()` raises on a directory path. -/
inductive ReadError where
  | notFound (path : String)
  | tooLarge (path : String) (size : Nat)
  | isADirectory (path : String)
deriving DecidableEq, Repr

/-- Message text of a read failure, as interpolated by the source. -/
def readErrorMsg : ReadError → String
  | .notFound p => "File not found: " ++ p
  | .tooLarge p sz => "File too large: " ++ p ++ " (" ++ formatFileSize sz ++ ")"
  | .isADirectory p => "Is a directory: " ++ p

/-- Embedding of `_read_file_content`: existence check, size cap check
(strictly greater than `MAX_FILE_SIZE` fails), then the decoded text.  The
utf-8 / latin-1 decode fallback always yields the modelled `content`. -/
def readFileContent (tree : List Entry) (p : FsPath) : Except ReadError String :=
  if pathExists tree p = false then .error (.notFound (joinAbs p))
  else
    match lookupFile tree p with
    | some fd =>
      if fd.size > MAX_FILE_SIZE then .error (.tooLarge (joinAbs p) fd.size)
      else .ok fd.content
    | none => .error (.isADirectory (joinAbs p))

theorem leads_self_append : ∀ q r : List Char, listLeads q (q ++ r) = true := by
  intro q
  induction q with
  | nil => intro r; rfl
  | cons c cs ih => intro r; simp [listLeads, ih]

theorem containsSubL_of_leads {s q : List Char} (h : listLeads q s = true) :
    containsSubL s q = true := by
  rw [containsSubL.eq_def, h]
  rfl

theorem containsSubL_cons (c : Char) {s q : List Char} (h : containsSubL s q = true) :
    containsSubL (c :: s) q = true := by
  rw [containsSubL.eq_def]
  split
  · rfl
  · exact h

theorem containsSubL_append_left : ∀ (a : List Char) {s q : List Char},
    containsSubL s q = true → containsSubL (a ++ s) q = true := by
  intro a
  induction a with
  | nil => intro s q h; simpa using h
  | cons c cs ih =>
    intro s q h
    rw [List.cons_append]
    exact containsSubL_cons c (ih h)

theorem containsSub_mid (a b c : String) : containsSub (a ++ b ++ c) b = true := by
  unfold containsSub
  have hd : (a ++ b ++ c).toList = a.toList ++ (b.toList ++ c.toList) := by
    simp [String.toList, String.data_append]
  rw [hd]
  exact containsSubL_append_left a.toList
    (containsSubL_of_leads (leads_self_append b.toList c.toList))

/-- C4: `SafeFileReader.read` succeeds on an existing file of exactly
1,048,576 bytes and returns its text; any file strictly over the cap fails
with the `TooLarge` error carrying the observed size, whose rendered message
contains the formatted observed size; a path that does not exist fails with
`NotFound`. -/
theorem C4_sizeCap :
    (∀ (tree : List Entry) (p : FsPath) (fd : FileData), lookupFile tree p = some fd →
      (fd.size = MAX_FILE_SIZE → readFileContent tree p = .ok fd.content) ∧
      (MAX_FILE_SIZE < fd.size →
        readFileContent tree p = .error (.tooLarge (joinAbs p) fd.size) ∧
        containsSub (readErrorMsg (.tooLarge (joinAbs p) fd.size)) (formatFileSize fd.size)
          = true)) ∧
    (∀ (tree : List Entry) (p : FsPath), pathExists tree p = false →
      readFileContent tree p = .error (.notFound (joinAbs p))) := by
  constructor
  · intro tree p fd h
    have hex : pathExists tree p = true := by simp [pathExists, h]
    refine ⟨fun hsz => ?_, fun hgt => ⟨?_, ?_⟩⟩
    · simp [readFileContent, hex, h, hsz]
    · simp [readFileContent, hex, h, hgt]
    · have := containsSub_mid ("File too large: " ++ joinAbs p ++ " (")
        (formatFileSize fd.size) ")"
      simpa [readErrorMsg, String.append_assoc] using this
  · intro tree p h
    simp [readFileContent, h]

/-- Concrete tree for the C4 witness: a file exactly at the cap, one a single
byte over it, and no entry named `missing`. -/
def c4Tree : List Entry :=
  [Entry.file "big" 1048577 "z", Entry.file "ok" 1048576 "hi"]

/-- Witness for C4 at concrete inputs. -/
theorem C4_sizeCap_witness :
    readFileContent c4Tree ["ok"] = .ok "hi" ∧
    readFileContent c4Tree ["big"] = .error (.tooLarge (joinAbs ["big"]) 1048577) ∧
    readFileContent c4Tree ["missing"] = .error (.notFound (joinAbs ["missing"])) :=
  ⟨(C4_sizeCap.1 c4Tree ["ok"] ⟨1048576, "hi"⟩ (by decide)).1 (by decide),
   ((C4_sizeCap.1 c4Tree ["big"] ⟨1048577, "z"⟩ (by decide)).2 (by decide)).1,
   C4_sizeCap.2 c4Tree ["missing"] (by decide)⟩

/-! ## `_get_python_files` (SourceFileIndex) -/

/-! All entries of a subtree together with their relative paths, as
enumerated by `Path.rglob` (which descends into every directory, hidden or
excluded ones included). -/

mutual
def allEntriesE : Entry → List (FsPath × Entry)
  | .file n sz c => [([n], .file n sz c)]
  | .dir n cs => ([n], .dir n cs) :: (allEntriesL cs).map (fun pe => (n :: pe.1, pe.2))
def allEntriesL : List Entry → List (FsPath × Entry)
  | [] => []
  | e :: es => allEntriesE e ++ allEntriesL es
end

/-- Python `part in EXCLUDE_DIRS`. -/
def isExcludedName (s : String) : Bool := EXCLUDE_DIRS.contains s

/-- Code-point lexicographic comparison of character lists — Python string
`<=`. -/
def listLexLE : List Char → List Char → Bool
  | [], _ => true
  | _ :: _, [] => false
  | a :: as, b :: bs => if a = b then listLexLE as bs else decide (a < b)

/-- Python string `<=`. -/
def pyStrLE (a b : String) : Bool := listLexLE a.toList b.toList

/-- Ordering on paths used by `sorted(...)` on `Path` objects: lexicographic
on the rendered full path. -/
def pathLE (a b : FsPath) : Bool := pyStrLE (joinAbs a) (joinAbs b)

theorem listLexLE_total : ∀ x y : List Char, listLexLE x y = true ∨ listLexLE y x = true := by
  intro x
  induction x with
  | nil => intro y; left; rfl
  | cons a as ih =>
    intro y
    cases y with
    | nil => right; rfl
    | cons b bs =>
      by_cases hab : a = b
      · subst hab
        rcases ih bs with h | h
        · left; simp [listLexLE, h]
        · right; simp [listLexLE, h]
      · rcases lt_or_gt_of_ne hab with h | h
        · left; simp [listLexLE, hab, h]
        · right; simp [listLexLE, Ne.symm hab, h]

theorem listLexLE_trans : ∀ x y z : List Char,
    listLexLE x y = true → listLexLE y z = true → listLexLE x z = true := by
  intro x
  induction x with
  | nil => intro y z _ _; rfl
  | cons a as ih =>
    intro y z hxy hyz
    cases y with
    | nil => simp [listLexLE] at hxy
    | cons b bs =>
      cases z with
      | nil => simp [listLexLE] at hyz
      | cons c cs =>
        by_cases hab : a = b
        · subst hab
          by_cases hbc : a = c
          · subst hbc
            simp only [listLexLE, if_pos rfl] at hxy hyz ⊢
            exact ih bs cs hxy hyz
          · simp only [listLexLE, if_pos rfl] at hxy
            simp only [listLexLE, if_neg hbc] at hyz ⊢
            exact hyz
        · by_cases hbc : b = c
          · subst hbc
            simp only [listLexLE, if_neg hab] at hxy ⊢
            exact hxy
          · simp only [listLexLE, if_neg hab] at hxy
            simp only [listLexLE, if_neg hbc] at hyz
            have hac : a < c := lt_trans (of_decide_eq_true hxy) (of_decide_eq_true hyz)
            simp only [listLexLE, if_neg (ne_of_lt hac)]
            exact decide_eq_true hac

instance pathLE_isTotal : IsTotal FsPath (fun a b => pathLE a b = true) :=
  ⟨fun a b => listLexLE_total (joinAbs a).toList (joinAbs b).toList⟩

instance pathLE_isTrans : IsTrans FsPath (fun a b => pathLE a b = true) :=
  ⟨fun a b c => listLexLE_trans (joinAbs a).toList (joinAbs b).toList (joinAbs c).toList⟩

/-- Embedding of `_get_python_files`: for each configured extension collect
every entry of the subtree whose name ends with it (the `rglob` pattern
`*{ext}` matches directories as well as files), keep those whose **full
path** — the root's own components included — has no component in
`EXCLUDE_DIRS`, and sort by full path. -/
def getPythonFiles (tree : List Entry) (root : FsPath) : List FsPath :=
  match lookupDir tree root with
  | none => []
  | some cs =>
    let raw := PYTHON_EXTENSIONS.flatMap (fun ext =>
      ((allEntriesL cs).filter (fun pe => pyEndsWith pe.2.name ext)).map
        (fun pe => root ++ pe.1))
    let keep := raw.filter (fun p => !(p.any isExcludedName))
    List.insertionSort (fun a b => pathLE a b = true) keep

/-- Tree for the C2 counterexample: the configured root's own directory name
is `venv`, which is in the exclusion set. -/
def c2Tree : List Entry := [Entry.dir "venv" [Entry.file "a.py" 1 ""]]

/-- C2: the claim as written is false on the code.  With the project root at
`/venv`, the file `a.py` has a relative path with no excluded component and
a configured source extension, yet `_get_python_files` returns nothing,
because the exclusion filter inspects `file_path.parts` of the **full**
path, which contains the root's own component `venv`. -/
theorem C2_counterexample :
    getPythonFiles c2Tree ["venv"] = [] ∧
    lookupDir c2Tree ["venv"] = some [Entry.file "a.py" 1 ""] ∧
    pyEndsWith "a.py" ".py" = true ∧
    (["a.py"] : FsPath).all (fun part => !isExcludedName part) = true :=
  ⟨rfl, rfl, rfl, rfl⟩

/-- C2 (amended): `_get_python_files` returns exactly the subtree entries
whose name ends in a configured source extension and whose full absolute
path — including the components of the root itself — has no component in
the exclusion set, sorted by full path, lexicographically ascending. -/
theorem C2_index_fullPathExclusion :
    ∀ (tree : List Entry) (root : FsPath) (cs : List Entry),
      lookupDir tree root = some cs →
      List.Pairwise (fun a b => pathLE a b = true) (getPythonFiles tree root) ∧
      (∀ p : FsPath, p ∈ getPythonFiles tree root ↔
        ((∃ ext ∈ PYTHON_EXTENSIONS, ∃ pe ∈ allEntriesL cs,
            pyEndsWith pe.2.name ext = true ∧ p = root ++ pe.1) ∧
         ∀ part ∈ p, isExcludedName part = false)) := by
  intro tree root cs h
  constructor
  · simp only [getPythonFiles, h]
    exact List.sorted_insertionSort _ _
  · intro p
    simp only [getPythonFiles, h]
    rw [List.mem_insertionSort]
    simp only [List.mem_filter, List.mem_flatMap, List.mem_map, List.mem_filter,
      Bool.not_eq_true', List.any_eq_false]
    constructor
    · rintro ⟨⟨ext, hext, pe, ⟨hpe, hends⟩, hp⟩, hexcl⟩
      exact ⟨⟨ext, hext, pe, hpe, hends, hp.symm⟩,
        fun part hmem => by simpa using hexcl part hmem⟩
    · rintro ⟨⟨ext, hext, pe, hpe, hends, hp⟩, hexcl⟩
      exact ⟨⟨ext, hext, pe, ⟨hpe, hends⟩, hp.symm⟩,
        fun part hmem => by simp [hexcl part hmem]⟩

/-- Tree for the C2 witness: a clean project root containing one source file
and one excluded subdirectory. -/
def c2wTree : List Entry :=
  [Entry.dir "proj" [Entry.file "a.py" 1 "", Entry.dir "venv" [Entry.file "b.py" 2 ""]]]

/-- Witness for the amended C2 at a concrete tree. -/
theorem C2_index_witness :
    List.Pairwise (fun a b => pathLE a b = true) (getPythonFiles c2wTree ["proj"]) ∧
    (∀ p : FsPath, p ∈ getPythonFiles c2wTree ["proj"] ↔
      ((∃ ext ∈ PYTHON_EXTENSIONS,
          ∃ pe ∈ allEntriesL [Entry.file "a.py" 1 "", Entry.dir "venv" [Entry.file "b.py" 2 ""]],
          pyEndsWith pe.2.name ext = true ∧ p = ["proj"] ++ pe.1) ∧
       ∀ part ∈ p, isExcludedName part = false)) :=
  C2_index_fullPathExclusion c2wTree ["proj"]
    [Entry.file "a.py" 1 "", Entry.dir "venv" [Entry.file "b.py" 2 ""]] rfl

/-! ## `_analyze_imports` (ImportTallyer) -/

/-- Drop a literal leading sequence, returning the remainder (regex literal
matching). -/
def dropLeads : List Char → List Char → Option (List Char)
  | [], l => some l
  | _ :: _, [] => none
  | a :: as, c :: cs => if a = c then dropLeads as cs else none

/-- Embedding of `re.match(r'^import\s+([^\s,]+)', line)`, returning the
captured module token. -/
def matchImport (l : List Char) : Option (List Char) :=
  match dropLeads "import".toList l with
  | none => none
  | some r1 =>
    if (r1.takeWhile pyIsSpace).isEmpty then none
    else
      let tok := (r1.dropWhile pyIsSpace).takeWhile (fun c => !pyIsSpace c && c != ',')
      if tok.isEmpty then none else some tok

/-- Embedding of `re.match(r'^from\s+([^\s,]+)\s+import', line)`, returning
the captured module token. -/
def matchFrom (l : List Char) : Option (List Char) :=
  match dropLeads "from".toList l with
  | none => none
  | some r1 =>
    if (r1.takeWhile pyIsSpace).isEmpty then none
    else
      let r2 := r1.dropWhile pyIsSpace
      let tok := r2.takeWhile (fun c => !pyIsSpace c && c != ',')
      if tok.isEmpty then none
      else
        let r3 := r2.drop tok.length
        if (r3.takeWhile pyIsSpace).isEmpty then none
        else if listLeads "import".toList (r3.dropWhile pyIsSpace) then some tok
        else none

/-- Modules contributed by one (already stripped) line: the inner
`for pattern in import_patterns` loop, each match reduced to its top-level
component (`match.group(1).split('.')[0]`). -/
def lineModules (line : String) : List String :=
  ((matchImport line.toList).toList ++ (matchFrom line.toList).toList).map
    (fun tok => (tok.takeWhile (fun c => c != '.')).asString)

/-- Python `import_counts[module] = import_counts.get(module, 0) + 1` on an
insertion-ordered association list. -/
def bump : List (String × Nat) → String → List (String × Nat)
  | [], k => [(k, 1)]
  | (k', v) :: rest, k => if k' == k then (k', v + 1) :: rest else (k', v) :: bump rest k

/-- Fold `bump` over a list of contributed module names. -/
def bumpAll (acc : List (String × Nat)) (ks : List String) : List (String × Nat) :=
  ks.foldl bump acc

/-- Tally of a list of raw source lines (the per-file inner loops of
`_analyze_imports`). -/
def tallyLines (lines : List String) : List (String × Nat) :=
  lines.foldl (fun acc line => bumpAll acc (lineModules (pyStrip line))) []

/-- Embedding of `_analyze_imports`: walk the source index, skip unreadable
files, and accumulate the per-line contributions into one ordered tally. -/
def analyzeImports (tree : List Entry) (root : FsPath) : List (String × Nat) :=
  (getPythonFiles tree root).foldl
    (fun acc p =>
      match readFileContent tree p with
      | .error _ => acc
      | .ok content =>
        (pyLines content).foldl (fun a line => bumpAll a (lineModules (pyStrip line))) acc)
    []

/-- Dictionary lookup with default 0 (`import_counts.get(module, 0)`). -/
def tallyCount (k : String) : List (String × Nat) → Nat
  | [] => 0
  | (k', v) :: rest => if k' == k then v else tallyCount k rest

theorem tallyCount_bump (k k' : String) :
    ∀ m : List (String × Nat),
      tallyCount k (bump m k') = tallyCount k m + (if k' == k then 1 else 0) := by
  intro m
  induction m with
  | nil => simp [bump, tallyCount]
  | cons a rest ih =>
    obtain ⟨ka, v⟩ := a
    by_cases h1 : ka = k'
    · subst h1
      by_cases h2 : ka = k
      · subst h2; simp [bump, tallyCount]
      · simp [bump, tallyCount, h2]
    · by_cases h2 : ka = k
      · subst h2
        have hk : (ka == k') = false := by
          simp only [beq_eq_false_iff_ne, ne_eq]
          exact h1
        have hk2 : (k' == ka) = false := by
          simp only [beq_eq_false_iff_ne, ne_eq]
          exact fun hc => h1 hc.symm
        simp [bump, tallyCount, hk, hk2]
      · simp [bump, tallyCount, h1, h2, ih]

theorem tallyCount_bumpAll (k : String) :
    ∀ (ks : List String) (acc : List (String × Nat)),
      tallyCount k (bumpAll acc ks) = tallyCount k acc + ks.count k := by
  intro ks
  induction ks with
  | nil => intro acc; simp [bumpAll]
  | cons x xs ih =>
    intro acc
    have hstep : bumpAll acc (x :: xs) = bumpAll (bump acc x) xs := rfl
    rw [hstep, ih, tallyCount_bump k x acc, List.count_cons]
    omega

theorem tallyFold_count (k : String) :
    ∀ (lines : List String) (acc : List (String × Nat)),
      tallyCount k (lines.foldl (fun a line => bumpAll a (lineModules (pyStrip line))) acc) =
        tallyCount k acc + (lines.flatMap (fun l => lineModules (pyStrip l))).count k := by
  intro lines
  induction lines with
  | nil => intro acc; simp
  | cons x xs ih =>
    intro acc
    rw [List.foldl_cons, ih, tallyCount_bumpAll, List.flatMap_cons, List.count_append]
    omega

theorem dropLeads_head {a : Char} {as l r : List Char}
    (h : dropLeads (a :: as) l = some r) : l.head? = some a := by
  cases l with
  | nil => simp [dropLeads] at h
  | cons c cs =>
    rw [dropLeads] at h
    by_cases hac : a = c
    · simp [hac]
    · simp [hac] at h

theorem matchImport_head {l t : List Char} (h : matchImport l = some t) :
    l.head? = some 'i' := by
  rw [matchImport] at h
  cases hd : dropLeads "import".toList l with
  | none => rw [hd] at h; simp at h
  | some r1 =>
    have : "import".toList = 'i' :: "mport".toList := rfl
    rw [this] at hd
    exact dropLeads_head hd

theorem matchFrom_head {l t : List Char} (h : matchFrom l = some t) :
    l.head? = some 'f' := by
  rw [matchFrom] at h
  cases hd : dropLeads "from".toList l with
  | none => rw [hd] at h; simp at h
  | some r1 =>
    have : "from".toList = 'f' :: "rom".toList := rfl
    rw [this] at hd
    exact dropLeads_head hd

theorem lineModules_length_le_one (line : String) : (lineModules line).length ≤ 1 := by
  rw [lineModules]
  cases h1 : matchImport line.toList with
  | none => cases h2 : matchFrom line.toList <;> simp
  | some t1 =>
    cases h2 : matchFrom line.toList with
    | none => simp
    | some t2 =>
      have hi := matchImport_head h1
      have hf := matchFrom_head h2
      rw [hi] at hf
      simp at hf

/-- Tree for the C5 concrete instance: one source file with one plain import
and one from-import of a dotted module. -/
def c5Tree : List Entry :=
  [Entry.dir "r" [Entry.file "m.py" 40 "import os\nfrom os.path import join"]]

/-- C5: each line matching the `import <module>` or `from <module> import`
patterns contributes exactly one occurrence of the module's top-level
component: the tally's count for any module equals the number of per-line
contributions of that module, no line contributes more than once, and the
two-line file of the claim counts `os` twice. -/
theorem C5_importTally :
    (∀ (lines : List String) (m : String),
      tallyCount m (tallyLines lines) =
        (lines.flatMap (fun l => lineModules (pyStrip l))).count m) ∧
    (∀ line : String, (lineModules line).length ≤ 1) ∧
    lineModules "import os" = ["os"] ∧
    lineModules "from os.path import join" = ["os"] ∧
    analyzeImports c5Tree ["r"] = [("os", 2)] := by
  refine ⟨fun lines m => ?_, lineModules_length_le_one, rfl, rfl, rfl⟩
  rw [tallyLines, tallyFold_count]
  simp [tallyCount]

/-! ## `_search_code` (CodeSearcher) -/

/-- Membership test for an `fnmatch` character class body, with `a-b`
ranges. -/
def classBodyMatch : List Char → Char → Bool
  | a :: '-' :: b :: rest, c => (decide (a ≤ c) && decide (c ≤ b)) || classBodyMatch rest c
  | a :: rest, c => (a = c) || classBodyMatch rest c
  | [], _ => false

/-- Shell-style wildcard matching on character lists — the semantics of
`fnmatch.fnmatch` on a case-sensitive filesystem: `*`, `?`, `[seq]` and
`[!seq]`, with an unmatched `[` treated literally. -/
def fnmatchL : List Char → List Char → Bool
  | [], [] => true
  | [], _ :: _ => false
  | '*' :: ps, s =>
    fnmatchL ps s ||
      (match s with
       | [] => false
       | _ :: s2 => fnmatchL ('*' :: ps) s2)
  | '?' :: ps, s =>
    (match s with
     | [] => false
     | _ :: s2 => fnmatchL ps s2)
  | '[' :: ps, s =>
    let body := ps.takeWhile (fun c => c != ']')
    if body.length < ps.length then
      let rest := ps.drop (body.length + 1)
      match s with
      | [] => false
      | c :: s2 =>
        (match body with
         | '!' :: negBody => !classBodyMatch negBody c
         | _ => classBodyMatch body c) && fnmatchL rest s2
    else
      (match s with
       | [] => false
       | c :: s2 => ('[' = c) && fnmatchL ps s2)
  | p :: ps, s =>
    (match s with
     | [] => false
     | c :: s2 => (p = c) && fnmatchL ps s2)
termination_by p s => (p.length, s.length)
decreasing_by
  all_goals simp_wf
  all_goals omega

/-- Python `fnmatch.fnmatch(name, pattern)` (POSIX case behaviour). -/
def fnmatch (name pat : String) : Bool := fnmatchL pat.toList name.toList

/-- One search hit: root-relative path, 1-based line number, stripped line
text. -/
structure SearchMatch where
  file : String
  line : Nat
  content : String
deriving DecidableEq, Repr

/-- Per-line test of the `_search_code` loop: lower-case both sides unless
`case_sensitive`, substring test, record the stripped line. -/
def matchLine (rel query : String) (cs : Bool) (il : Nat × String) : Option SearchMatch :=
  let searchLine := if cs then il.2 else pyLower il.2
  let searchQuery := if cs then query else pyLower query
  if containsSub searchLine searchQuery then some ⟨rel, il.1, pyStrip il.2⟩ else none

/-- Matches contributed by one file, in ascending 1-based line order
(`enumerate(lines, 1)`). -/
def fileMatches (rel content query : String) (cs : Bool) : List SearchMatch :=
  (List.enumFrom 1 (pyLines content)).filterMap (matchLine rel query cs)

/-- Python `str(file_path.relative_to(root))` for an index entry (always
under the root). -/
def relStr (root p : FsPath) : String := joinRel (p.drop root.length)

/-- Python `Path.name` (last path component). -/
def lastName (p : FsPath) : String := p.getLastD ""

/-- Embedding of the match-collection loop of `_search_code`: candidate
files from the index, optionally filtered by `fnmatch` on the file name;
unreadable files are skipped; matches accumulate in file-discovery order,
then line order. -/
def searchMatches (tree : List Entry) (root : FsPath) (query : String) (cs : Bool)
    (filePattern : Option String) : List SearchMatch :=
  let files := getPythonFiles tree root
  let files :=
    match filePattern with
    | some pat => files.filter (fun p => fnmatch (lastName p) pat)
    | none => files
  files.flatMap (fun p =>
    match readFileContent tree p with
    | .error _ => []
    | .ok content => fileMatches (relStr root p) content query cs)

/-- The displayed list: `matches[:50]`. -/
def searchDisplayed (tree : List Entry) (root : FsPath) (query : String) (cs : Bool)
    (filePattern : Option String) : List SearchMatch :=
  (searchMatches tree root query cs filePattern).take 50

/-- The reported total: `len(matches)`, tracked before truncation. -/
def searchTotal (tree : List Entry) (root : FsPath) (query : String) (cs : Bool)
    (filePattern : Option String) : Nat :=
  (searchMatches tree root query cs filePattern).length

theorem matchLine_line {rel q : String} {cs : Bool} {il : Nat × String} {m : SearchMatch}
    (h : matchLine rel q cs il = some m) : m.line = il.1 := by
  rw [matchLine] at h
  repeat' split at h
  all_goals simp_all
  all_goals (cases h; rfl)

theorem fileMatches_line_ge {rel q : String} {cs : Bool} :
    ∀ (ls : List String) (k : Nat) (m : SearchMatch),
      m ∈ (List.enumFrom k ls).filterMap (matchLine rel q cs) → k ≤ m.line := by
  intro ls
  induction ls with
  | nil => intro k m h; simp [List.enumFrom] at h
  | cons x xs ih =>
    intro k m h
    have hstep : List.enumFrom k (x :: xs) = (k, x) :: List.enumFrom (k + 1) xs := rfl
    rw [hstep, List.filterMap_cons] at h
    cases hx : matchLine rel q cs (k, x) with
    | none =>
      rw [hx] at h
      exact Nat.le_of_succ_le (ih (k + 1) m h)
    | some y =>
      rw [hx] at h
      rcases List.mem_cons.mp h with rfl | hmem
      · exact le_of_eq (matchLine_line hx).symm
      · exact Nat.le_of_succ_le (ih (k + 1) m hmem)

theorem enumFrom_matches_pairwise {rel q : String} {cs : Bool} :
    ∀ (ls : List String) (k : Nat),
      List.Pairwise (fun a b => a.line < b.line)
        ((List.enumFrom k ls).filterMap (matchLine rel q cs)) := by
  intro ls
  induction ls with
  | nil => intro k; simp [List.enumFrom]
  | cons x xs ih =>
    intro k
    have hstep : List.enumFrom k (x :: xs) = (k, x) :: List.enumFrom (k + 1) xs := rfl
    rw [hstep, List.filterMap_cons]
    cases hx : matchLine rel q cs (k, x) with
    | none => exact ih (k + 1)
    | some y =>
      refine List.Pairwise.cons (fun b hb => ?_) (ih (k + 1))
      rw [matchLine_line hx]
      exact Nat.lt_of_succ_le (fileMatches_line_ge xs (k + 1) b hb)

/-- Tree for the C6 concrete instance: one source file whose second line
contains `# todo: fix`. -/
def c6Tree : List Entry :=
  [Entry.dir "r" [Entry.file "a.py" 30 "x = 1\n# todo: fix\ny = 2"]]

/-- Tree with sixty matching lines, for the truncation conjunct of C6. -/
def c6BigTree : List Entry :=
  [Entry.dir "r" [Entry.file "m.py" 200 (String.intercalate "\n" (List.replicate 60 "q"))]]

set_option maxRecDepth 16384 in
/-- C6: search compares lines by substring after lower-casing both sides
unless case-sensitive (so query `TODO` hits `# todo: fix` at its 1-based
line number only when case-insensitive); within a file the matches are in
strictly ascending line order; the displayed list is `matches[:50]` while
the reported total is the exact full count (60 matches display as 50 but
report 60). -/
theorem C6_codeSearch :
    (∀ (rel content q : String) (cs : Bool),
      List.Pairwise (fun a b => a.line < b.line) (fileMatches rel content q cs)) ∧
    searchMatches c6Tree ["r"] "TODO" false none =
      [{ file := "a.py", line := 2, content := "# todo: fix" }] ∧
    searchMatches c6Tree ["r"] "TODO" true none = [] ∧
    (searchDisplayed c6BigTree ["r"] "q" true none).length = 50 ∧
    searchTotal c6BigTree ["r"] "q" true none = 60 :=
  ⟨fun rel content q cs => enumFrom_matches_pairwise (pyLines content) 1,
   rfl, rfl, by decide, by decide⟩

/-! ## `_build_directory_tree` (TreeWalker) -/

/-- Lexicographic comparison of the sort key `(x.is_file(), x.name.lower())`
used by the tree walk (`False` sorts before `True`). -/
def keyLE (x y : Bool × String) : Bool :=
  if x.1 = y.1 then pyStrLE x.2 y.2 else (!x.1 && y.1)

/-- Sort key of an entry. -/
def entryKey (e : Entry) : Bool × String := (e.isFile, pyLower e.name)

/-- Comparison of entries by `(is_file, name.lower())`. -/
def entryLE (a b : Entry) : Bool := keyLE (entryKey a) (entryKey b)

theorem keyLE_total : ∀ x y : Bool × String, keyLE x y = true ∨ keyLE y x = true := by
  intro ⟨xf, xs⟩ ⟨yf, ys⟩
  by_cases h : xf = yf
  · subst h
    rcases listLexLE_total xs.toList ys.toList with hl | hl
    · left; simp only [keyLE, if_pos rfl, pyStrLE]; exact hl
    · right; simp only [keyLE, if_pos rfl, pyStrLE]; exact hl
  · cases xf <;> cases yf <;> simp_all [keyLE]

theorem keyLE_trans : ∀ x y z : Bool × String,
    keyLE x y = true → keyLE y z = true → keyLE x z = true := by
  intro ⟨xf, xs⟩ ⟨yf, ys⟩ ⟨zf, zs⟩ hxy hyz
  by_cases h1 : xf = yf
  · subst h1
    by_cases h2 : xf = zf
    · subst h2
      simp only [keyLE, if_pos rfl, pyStrLE] at hxy hyz ⊢
      exact listLexLE_trans _ _ _ hxy hyz
    · simp only [keyLE, if_pos rfl] at hxy
      simp only [keyLE, if_neg h2] at hyz ⊢
      exact hyz
  · by_cases h2 : yf = zf
    · subst h2
      simp only [keyLE, if_neg h1] at hxy ⊢
      exact hxy
    · cases xf <;> cases yf <;> cases zf <;> simp_all [keyLE]

instance entryLE_isTotal : IsTotal Entry (fun a b => entryLE a b = true) :=
  ⟨fun a b => keyLE_total (entryKey a) (entryKey b)⟩

instance entryLE_isTrans : IsTrans Entry (fun a b => entryLE a b = true) :=
  ⟨fun a b c => keyLE_trans (entryKey a) (entryKey b) (entryKey c)⟩

/-- Python `sorted(path.iterdir(), key=lambda x: (x.is_file(), x.name.lower()))`
as a stable sort. -/
def sortItems (es : List Entry) : List Entry :=
  List.insertionSort (fun a b => entryLE a b = true) es

/-- Python `Path.suffix`: the last-dot extension, empty when the name has no
dot in an interior position. -/
def pathSuffix (name : String) : String :=
  let l := name.toList
  let tail := l.reverse.takeWhile (fun c => c != '.')
  if l.contains '.' then
    let i := l.length - 1 - tail.length
    if decide (0 < i) && decide (i < l.length - 1) then ('.' :: tail.reverse).asString else ""
  else ""

/-- Embedding of `_get_file_icon` (keyed on the lower-cased suffix, then the
literal name). -/
def getFileIcon (name : String) : String :=
  let suffix := pyLower (pathSuffix name)
  if PYTHON_EXTENSIONS.contains suffix then "üêç"
  else if CONFIG_EXTENSIONS.contains suffix then "‚öôÔ∏è"
  else if DOC_EXTENSIONS.contains suffix then "üìù"
  else if REQUIREMENTS_FILES.contains name then "üì¶"
  else "üìÑ"

/-- Indentation `"  " * current_depth`. -/
def indentStr (depth : Nat) : String := (List.replicate (2 * depth) ' ').asString

/-- Rendered line for a file entry. -/
def fileLine (c : Nat) (name : String) (sz : Nat) : String :=
  indentStr c ++ getFileIcon name ++ " " ++ name ++ " (" ++ formatFileSize sz ++ ")"

/-- Rendered line for a directory entry. -/
def dirLine (c : Nat) (name : String) : String :=
  indentStr c ++ "üìÅ " ++ name ++ "/"

/-- Lines contributed by one directory item of `_build_directory_tree`:
hidden entries are skipped unless requested, excluded directory names are
skipped, directories contribute their marker line plus (through `sub`) their
recursively rendered children, files contribute one line with icon and
formatted size. -/
def treeItemLines (hid : Bool) (c : Nat) (sub : List Entry → List String) : Entry → List String
  | .file n sz _ =>
    if !hid && pyStartsWith n "." then [] else [fileLine c n sz]
  | .dir n cs =>
    if !hid && pyStartsWith n "." then []
    else if isExcludedName n then []
    else dirLine c n :: sub cs

/-- Depth-budget form of `_build_directory_tree`: the budget is
`max_depth - current_depth`, so the guard `current_depth >= max_depth`
becomes budget `0`, and the recursion guard `current_depth < max_depth - 1`
becomes `1 ≤ b` for budget `b + 1`.  Children are rendered sorted by
`(is_file, name.lower())`; joining the flattened line list with newlines is
exactly the source's skip-empty-subtree join. -/
def buildTreeAux (hid : Bool) : Nat → Nat → List Entry → List String
  | 0, _, _ => []
  | b + 1, c, es =>
    (sortItems es).flatMap
      (treeItemLines hid c (fun cs => if 1 ≤ b then buildTreeAux hid b (c + 1) cs else []))

/-- Embedding of `_build_directory_tree` on a root directory's children. -/
def buildDirectoryTree (es : List Entry) (maxDepth : Nat) (hid : Bool) : String :=
  String.intercalate "\n" (buildTreeAux hid maxDepth 0 es)

/-! Counting and well-formedness predicates for the tree-walk property. -/

mutual
def numFilesE : Entry → Nat
  | .file _ _ _ => 1
  | .dir _ cs => numFilesL cs
def numFilesL : List Entry → Nat
  | [] => 0
  | e :: es => numFilesE e + numFilesL es
end

mutual
def numDirsE : Entry → Nat
  | .file _ _ _ => 0
  | .dir _ cs => 1 + numDirsL cs
def numDirsL : List Entry → Nat
  | [] => 0
  | e :: es => numDirsE e + numDirsL es
end

mutual
def hasFileE : Entry → Bool
  | .file _ _ _ => true
  | .dir _ cs => hasFileL cs
def hasFileL : List Entry → Bool
  | [] => false
  | e :: es => hasFileE e || hasFileL es
end

mutual
def walkableE : Entry → Bool
  | .file n _ _ => !pyStartsWith n "."
  | .dir n cs => !pyStartsWith n "." && !isExcludedName n && hasFileL cs && walkableL cs
def walkableL : List Entry → Bool
  | [] => true
  | e :: es => walkableE e && walkableL es
end

mutual
def filesWithinE : Nat → Entry → Bool
  | b, .file _ _ _ => decide (1 ≤ b)
  | b, .dir _ cs => filesWithinL (b - 1) cs
def filesWithinL : Nat → List Entry → Bool
  | _, [] => true
  | b, e :: es => filesWithinE b e && filesWithinL b es
end

mutual
theorem hasFile_not_within0_E : ∀ e : Entry, hasFileE e = true → filesWithinE 0 e = false
  | .file _ _ _, _ => by simp [filesWithinE]
  | .dir n cs, h => by
    rw [hasFileE] at h
    rw [filesWithinE]
    exact hasFile_not_within0_L cs h
theorem hasFile_not_within0_L : ∀ es : List Entry, hasFileL es = true → filesWithinL 0 es = false
  | [], h => by simp [hasFileL] at h
  | e :: es, h => by
    rw [hasFileL] at h
    rw [filesWithinL]
    rcases Bool.or_eq_true_iff.mp h with he | hes
    · simp [hasFile_not_within0_E e he]
    · simp [hasFile_not_within0_L es hes]
end

theorem walkable_within0_nil : ∀ es : List Entry,
    walkableL es = true → filesWithinL 0 es = true → es = [] := by
  intro es hc hw
  cases es with
  | nil => rfl
  | cons e rest =>
    rw [walkableL, Bool.and_eq_true] at hc
    rw [filesWithinL, Bool.and_eq_true] at hw
    cases e with
    | file n sz c => simp [filesWithinE] at hw
    | dir n cs =>
      rw [walkableE] at hc
      have hhf : hasFileL cs = true := by
        have := hc.1
        simp only [Bool.and_eq_true] at this
        exact this.1.2
      have : filesWithinE 0 (.dir n cs) = false := by
        rw [filesWithinE]
        exact hasFile_not_within0_L cs hhf
      rw [this] at hw
      exact absurd hw.1 (by simp)

theorem buildTreeAux_length (hid : Bool) :
    ∀ (b c : Nat) (es : List Entry), walkableL es = true → filesWithinL b es = true →
      (buildTreeAux hid b c es).length = numFilesL es + numDirsL es := by
  intro b
  induction b with
  | zero =>
    intro c es hc hw
    have hnil : es = [] := walkable_within0_nil es hc hw
    subst hnil
    simp [buildTreeAux, numFilesL, numDirsL]
  | succ b ih =>
    intro c es hc hw
    rw [buildTreeAux, List.length_flatMap]
    have hperm : List.Perm (sortItems es) es := List.perm_insertionSort _ es
    have hmap := hperm.map
      (List.length ∘ treeItemLines hid c (fun cs => if 1 ≤ b then buildTreeAux hid b (c + 1) cs else []))
    rw [hmap.sum_eq]
    clear hmap hperm
    revert hc hw
    induction es with
    | nil => intro _ _; simp [numFilesL, numDirsL]
    | cons e rest ihes =>
      intro hc hw
      rw [walkableL, Bool.and_eq_true] at hc
      rw [filesWithinL, Bool.and_eq_true] at hw
      rw [List.map_cons, List.sum_cons, numFilesL, numDirsL]
      have hrest := ihes hc.2 hw.2
      have hitem : ((treeItemLines hid c
          (fun cs => if 1 ≤ b then buildTreeAux hid b (c + 1) cs else [])) e).length =
          numFilesE e + numDirsE e := by
        cases e with
        | file n sz ct =>
          have hn : pyStartsWith n "." = false := by
            have h1 := hc.1
            rw [walkableE] at h1
            simpa using h1
          rw [treeItemLines, hn]
          simp [numFilesE, numDirsE]
        | dir n cs =>
          have h1 := hc.1
          rw [walkableE] at h1
          simp only [Bool.and_eq_true] at h1
          obtain ⟨⟨⟨hn, hx⟩, hhf⟩, hwk⟩ := h1
          have hwin : filesWithinL b cs = true := by
            have h2 := hw.1
            rw [filesWithinE] at h2
            simpa using h2
          rw [treeItemLines]
          rw [Bool.not_eq_true'] at hn hx
          rw [hn, hx]
          simp only [Bool.and_false, Bool.false_eq_true, if_false, List.length_cons]
          by_cases hb : 1 ≤ b
          · rw [if_pos hb, ih (c + 1) cs hwk hwin, numFilesE, numDirsE]
            omega
          · have hb0 : b = 0 := by omega
            subst hb0
            rw [hasFile_not_within0_L cs hhf] at hwin
            exact absurd hwin (by simp)
      rw [Function.comp_apply, hitem, hrest]
      omega

/-- C7: for a root whose entries are neither hidden nor excluded, whose
directories all contain at least one file (the claim's "containing
directories"), and whose files all lie at depth at most `maxDepth`, the walk
renders exactly one line per file plus one line per directory — nothing for
anything deeper — and a `maxDepth` of `0` renders the empty string for every
root. -/
theorem C7_treeWalker :
    (∀ (hid : Bool) (maxDepth : Nat) (es : List Entry),
      walkableL es = true → filesWithinL maxDepth es = true →
      (buildTreeAux hid maxDepth 0 es).length = numFilesL es + numDirsL es) ∧
    (∀ (es : List Entry) (hid : Bool), buildDirectoryTree es 0 hid = "") :=
  ⟨fun hid maxDepth es hc hw => buildTreeAux_length hid maxDepth 0 es hc hw,
   fun _ _ => rfl⟩

/-- Tree for the C7 witness: one package directory with a file, plus a root
file, rendered with depth 2. -/
def c7Tree : List Entry :=
  [Entry.dir "pkg" [Entry.file "a.py" 10 ""], Entry.file "b.py" 5 ""]

/-- Witness for C7 at a concrete tree. -/
theorem C7_treeWalker_witness :
    (buildTreeAux true 2 0 c7Tree).length = numFilesL c7Tree + numDirsL c7Tree ∧
    buildDirectoryTree [] 0 true = "" :=
  ⟨C7_treeWalker.1 true 2 c7Tree (by decide) (by decide), C7_treeWalker.2 [] true⟩

/-! ## `_parse_pyproject_toml` and `_parse_setup_file` (ManifestParser) -/

/-- Embedding of `_parse_pyproject_toml`: a state fold over stripped lines
with the in-dependencies-section flag; inside the section, any line with `=`
contributes its left side stripped of whitespace and quotes, except the
literal `python`. -/
def parsePyprojectToml (content : String) : List String :=
  ((pyLines content).foldl
    (fun (st : List String × Bool) line =>
      let l := pyStrip line
      if pyStartsWith l "[tool.poetry.dependencies]" || pyStartsWith l "dependencies = [" then
        (st.1, true)
      else if pyStartsWith l "[" && st.2 then
        (st.1, false)
      else if st.2 && containsSub l "=" then
        let depName := pyStripChars (pyStrip (cutAt l "=")) ['"', '\'']
        if depName != "python" then (st.1 ++ [depName], st.2) else st
      else st)
    ([], false)).1

/-- One attempt of the regex `<key>\s*=\s*\[(.*?)\]` (DOTALL, non-greedy) at
the current position: the literal key, optional whitespace, `=`, optional
whitespace, `[`, then the shortest run up to the next `]`.  Returns the
capture and the remainder after the closing bracket. -/
def tryKeyMatch (key : List Char) (s : List Char) : Option (List Char × List Char) :=
  match dropLeads key s with
  | none => none
  | some r1 =>
    match r1.dropWhile pyIsSpace with
    | '=' :: r3 =>
      match r3.dropWhile pyIsSpace with
      | '[' :: r5 =>
        let body := r5.takeWhile (fun c => c != ']')
        if body.length < r5.length then some (body, r5.drop (body.length + 1))
        else none
      | _ => none
    | _ => none

/-- Fuelled scan embedding `re.findall` for the bracketed-assignment
pattern: leftmost matches, non-overlapping, scanning resumes after each
match. -/
def findKeyMatches (key : List Char) : Nat → List Char → List (List Char)
  | 0, _ => []
  | _ + 1, [] => []
  | fuel + 1, c :: rest =>
    match tryKeyMatch key (c :: rest) with
    | some (cap, after) => cap :: findKeyMatches key fuel after
    | none => findKeyMatches key fuel rest

/-- Fuelled scan embedding `re.findall(r'["\']([^"\']+)["\']', match)`: an
opening quote of either kind, one or more non-quote characters, a closing
quote of either kind. -/
def findQuoted : Nat → List Char → List (List Char)
  | 0, _ => []
  | _ + 1, [] => []
  | fuel + 1, c :: rest =>
    if c = '"' || c = '\'' then
      let cap := rest.takeWhile (fun ch => ch != '"' && ch != '\'')
      if cap.isEmpty then findQuoted fuel rest
      else
        match rest.drop cap.length with
        | q :: after =>
          if q = '"' || q = '\'' then cap :: findQuoted fuel after
          else findQuoted fuel rest
        | [] => findQuoted fuel rest
    else findQuoted fuel rest

/-- Version-constraint stripping of `_parse_setup_file`:
`pkg.split('>=')[0].split('==')[0].split('<')[0].strip()`. -/
def setupDepOf (pkg : String) : String :=
  pyStrip (cutAt (cutAt (cutAt pkg ">=") "==") "<")

/-- Embedding of `_parse_setup_file`: both assignment patterns, all quoted
substrings of each bracketed match, constraint-stripped. -/
def parseSetupFile (content : String) : List String :=
  let l := content.toList
  ["install_requires".toList, "requires".toList].flatMap (fun key =>
    (findKeyMatches key (l.length + 1) l).flatMap (fun m =>
      (findQuoted (m.length + 1) m).map (fun cap => setupDepOf cap.asString)))

/-! ## `_analyze_requirement_files` (ManifestParser dispatch) -/

/-- Per-manifest dispatch of `_analyze_requirement_files`: `.txt` names go
to the line-list parser, `pyproject.toml` to the declarative parser,
`setup.py`/`setup.cfg` to the free-text parser, anything else (`Pipfile`)
falls through to `continue`.  A `TooLarge` read failure inside a parser is
the caught-and-logged exception, yielding no entry. -/
def analyzeReqFile (name : String) (fd : FileData) : Option (List String) :=
  if pyEndsWith name ".txt" then
    if fd.size > MAX_FILE_SIZE then none else some (parseRequirementsTxt fd.content)
  else if name == "pyproject.toml" then
    if fd.size > MAX_FILE_SIZE then none else some (parsePyprojectToml fd.content)
  else if name == "setup.py" || name == "setup.cfg" then
    if fd.size > MAX_FILE_SIZE then none else some (parseSetupFile fd.content)
  else none

/-- One iteration of the `_analyze_requirement_files` loop: skip missing
files, parse per format, record a non-empty dependency list. -/
def analyzeReqStep (getFile : String → Option FileData)
    (acc : List (String × List String)) (name : String) : List (String × List String) :=
  match getFile name with
  | none => acc
  | some fd =>
    match analyzeReqFile name fd with
    | some deps => if deps.isEmpty then acc else acc ++ [(name, deps)]
    | none => acc

/-- Core loop of `_analyze_requirement_files` over an abstract root-level
file lookup: iterate the recognised manifest names in order. -/
def analyzeReqCore (getFile : String → Option FileData) : List (String × List String) :=
  REQUIREMENTS_FILES.foldl (analyzeReqStep getFile) []

/-- Embedding of `_analyze_requirement_files` against the filesystem. -/
def analyzeRequirementFiles (tree : List Entry) (root : FsPath) : List (String × List String) :=
  analyzeReqCore (fun n => lookupFile tree (root ++ [n]))

/-- Total dependency count used by the overview:
`sum(len(deps) for deps in deps_info.values())`. -/
def totalDeps (info : List (String × List String)) : Nat :=
  (info.map (fun kv => kv.2.length)).sum

theorem analyzeReqFold_mem (getFile : String → Option FileData) :
    ∀ (ns : List String) (acc : List (String × List String)) (k : String),
      k ∈ (ns.foldl (analyzeReqStep getFile) acc).map Prod.fst →
      k ∈ acc.map Prod.fst ∨
        (k ∈ ns ∧ ∃ fd, getFile k = some fd ∧ analyzeReqFile k fd ≠ none) := by
  intro ns
  induction ns with
  | nil => intro acc k h; exact Or.inl h
  | cons n rest ih =>
    intro acc k h
    rw [List.foldl_cons] at h
    rcases ih (analyzeReqStep getFile acc n) k h with hacc | ⟨hmem, hfd⟩
    · rw [analyzeReqStep] at hacc
      cases hg : getFile n with
      | none => rw [hg] at hacc; exact Or.inl hacc
      | some fd =>
        rw [hg] at hacc
        dsimp only at hacc
        cases hp : analyzeReqFile n fd with
        | none =>
          rw [hp] at hacc
          dsimp only at hacc
          exact Or.inl hacc
        | some deps =>
          rw [hp] at hacc
          dsimp only at hacc
          by_cases he : deps.isEmpty
          · rw [if_pos he] at hacc; exact Or.inl hacc
          · rw [if_neg he] at hacc
            rw [List.map_append, List.mem_append] at hacc
            rcases hacc with h1 | h2
            · exact Or.inl h1
            · simp only [List.map_cons, List.map_nil, List.mem_singleton] at h2
              refine Or.inr ⟨?_, fd, ?_, ?_⟩
              · rw [h2]; exact List.mem_cons_self n rest
              · rw [h2]; exact hg
              · rw [h2, hp]; exact Option.some_ne_none deps
    · exact Or.inr ⟨List.mem_cons_of_mem n hmem, hfd⟩

theorem pipfile_parse_none (fd : FileData) : analyzeReqFile "Pipfile" fd = none := rfl

/-- C9: the per-format dispatch has no branch for `Pipfile`, so the analysis
mapping never contains a `Pipfile` entry, and the whole analysis — hence the
overview's total dependency count — is unchanged whether a root-level
`Pipfile` is present (with any contents) or absent. -/
theorem C9_pipfileIgnored :
    (∀ (tree : List Entry) (root : FsPath),
      "Pipfile" ∉ (analyzeRequirementFiles tree root).map Prod.fst) ∧
    (∀ getFile : String → Option FileData,
      "Pipfile" ∉ (analyzeReqCore getFile).map Prod.fst) ∧
    (∀ (getFile : String → Option FileData) (fd : FileData),
      analyzeReqCore (fun n => if n = "Pipfile" then some fd else getFile n) =
        analyzeReqCore (fun n => if n = "Pipfile" then none else getFile n)) ∧
    (∀ (getFile : String → Option FileData) (fd : FileData),
      totalDeps (analyzeReqCore (fun n => if n = "Pipfile" then some fd else getFile n)) =
        totalDeps (analyzeReqCore (fun n => if n = "Pipfile" then none else getFile n))) := by
  have hmem : ∀ getFile : String → Option FileData,
      "Pipfile" ∉ (analyzeReqCore getFile).map Prod.fst := by
    intro getFile h
    rcases analyzeReqFold_mem getFile REQUIREMENTS_FILES [] "Pipfile" h with hacc | ⟨_, fd, _, hne⟩
    · simp at hacc
    · exact hne (pipfile_parse_none fd)
  have heq : ∀ (getFile : String → Option FileData) (fd : FileData),
      analyzeReqCore (fun n => if n = "Pipfile" then some fd else getFile n) =
        analyzeReqCore (fun n => if n = "Pipfile" then none else getFile n) :=
    fun getFile fd => rfl
  exact ⟨fun tree root => hmem _, hmem, heq, fun getFile fd => congrArg totalDeps (heq getFile fd)⟩

/-! ## Engine state and operations -/

/-- Prefix test on path component lists (`Path.relative_to` succeeds exactly
when the root's parts lead the path's parts). -/
def listLeadsPath : List String → List String → Bool
  | [], _ => true
  | _ :: _, [] => false
  | a :: as, b :: bs => a == b && listLeadsPath as bs

/-- Python `path.relative_to(root)`: the remainder when `root` is a parts
prefix of `path`, otherwise the raised `ValueError`. -/
def relativeTo (path root : FsPath) : Option FsPath :=
  if listLeadsPath root path then some (path.drop root.length) else none

/-- Python `"c" * n`. -/
def repeatChar (n : Nat) (c : Char) : String := (List.replicate n c).asString

/-- Last path component (`Path.name`, empty for the filesystem root). -/
def lastComp (p : FsPath) : String := p.getLastD ""

/-- Python `(d / "__init__.py").exists()` for a candidate package
directory. -/
def dirHasInit (e : Entry) : Bool :=
  match e with
  | .dir _ cs => pathExists cs ["__init__.py"]
  | .file _ _ _ => false

/-- Embedding of `_find_python_indicators` (root already set): root-level
`*.py` glob count, recognised manifest files present, package directories
with `__init__.py`. -/
def findPythonIndicators (tree : List Entry) (root : FsPath) : List String :=
  let cs := (lookupDir tree root).getD []
  let pyFiles := cs.filter (fun e => pyEndsWith e.name ".py")
  let ind1 := if pyFiles.length > 0 then [toString pyFiles.length ++ " Python files in root"] else []
  let ind2 := (REQUIREMENTS_FILES.filter (fun fn => pathExists tree (root ++ [fn]))).map
    (fun fn => "Found " ++ fn)
  let packages := cs.filter (fun e => e.isDir && dirHasInit e)
  let ind3 := if packages.length > 0 then [toString packages.length ++ " Python packages found"] else []
  ind1 ++ ind2 ++ ind3

/-- Embedding of `_set_project_root`: existence check, directory check, then
assignment of the resolved root (paths are modelled already resolved) and
the indicator report.  On failure the previous root is kept. -/
def setProjectRoot (tree : List Entry) (p : FsPath) (s : Option FsPath) :
    Option FsPath × String :=
  if pathExists tree p = false then
    (s, "Error: Path does not exist: " ++ joinAbs p)
  else
    match lookupDir tree p with
    | none => (s, "Error: Path is not a directory: " ++ joinAbs p)
    | some _ =>
      let inds := findPythonIndicators tree p
      (some p,
        "Project root set to: " ++ joinAbs p ++ "\n\n" ++
          (if inds.isEmpty then
            "Warning: No clear Python project indicators found in this directory."
          else
            "Python project indicators found:\n" ++
              String.join (inds.map (fun i => "  - " ++ i ++ "\n"))))

/-- Embedding of `_generate_project_overview`. -/
def generateProjectOverview (tree : List Entry) (s : Option FsPath) : String :=
  match s with
  | none => "No project root set"
  | some root =>
    let name := lastComp root
    let cs := (lookupDir tree root).getD []
    let o := "Python Project Overview: " ++ name ++ "\n" ++
      repeatChar (25 + name.length) '=' ++ "\n\n"
    let o := o ++ "üìÅ Project Root: " ++ joinAbs root ++ "\n"
    let o := o ++ "üêç Python Files: " ++ toString (getPythonFiles tree root).length ++ "\n"
    let packages := cs.filter (fun e => e.isDir && dirHasInit e)
    let o := o ++
      (if packages.length > 0 then
        "üì¶ Python Packages: " ++ toString packages.length ++ "\n" ++
          String.join ((packages.take 5).map (fun d => "    - " ++ d.name ++ "\n")) ++
          (if packages.length > 5 then
            "    ... and " ++ toString (packages.length - 5) ++ " more\n"
          else "")
      else "")
    let configFiles := REQUIREMENTS_FILES.filter (fun fn => pathExists tree (root ++ [fn]))
    let o := o ++
      (if configFiles.length > 0 then
        "‚öôÔ∏è  Configuration Files: " ++ String.intercalate ", " configFiles ++ "\n"
      else "")
    let docCount :=
      (DOC_EXTENSIONS.map (fun ext => (cs.filter (fun e => pyEndsWith e.name ext)).length)).sum
    let o := o ++
      (if docCount > 0 then "üìù Documentation: " ++ toString docCount ++ " files\n" else "")
    let depsInfo := analyzeRequirementFiles tree root
    let o := o ++
      (if depsInfo.length > 0 then
        "üìã Dependencies: ~" ++ toString (totalDeps depsInfo) ++ " packages\n"
      else "")
    o ++ "\n" ++ repeatChar 50 '=' ++ "\n" ++
      "Use other tools to explore specific aspects of the project!"

/-- Embedding of `_explore_project_structure`. -/
def exploreProjectStructureOp (tree : List Entry) (s : Option FsPath)
    (maxDepth : Nat) (includeHidden : Bool) : String :=
  match s with
  | none => "Error: No project root set"
  | some root =>
    match lookupDir tree root with
    | some cs => buildDirectoryTree cs maxDepth includeHidden
    | none => "Error exploring structure: root missing"

/-- Message of the `ValueError` from `relative_to` on an out-of-root path. -/
def relErrText (path root : FsPath) : String :=
  "'" ++ joinAbs path ++ "' is not in the subpath of '" ++ joinAbs root ++ "'"

/-- Embedding of `_read_file`: relative arguments resolve against the root,
the content is read first, then the header path is computed with
`relative_to`; each failure is rendered by the surrounding handler as
`Error reading file: ...`. -/
def readFileOp (tree : List Entry) (s : Option FsPath) (isAbs : Bool) (p : FsPath) : String :=
  match s with
  | none => "Error: No project root set"
  | some root =>
    let path := if isAbs then p else root ++ p
    match readFileContent tree path with
    | .error e => "Error reading file: " ++ readErrorMsg e
    | .ok content =>
      match relativeTo path root with
      | some rel => "File: " ++ joinRel rel ++ "\n\n" ++ content
      | none => "Error reading file: " ++ relErrText path root

/-- Size reported for an index entry (`stat().st_size`; directory sizes are
not modelled and render as 0). -/
def entrySize (tree : List Entry) (p : FsPath) : Nat :=
  match lookupFile tree p with
  | some fd => fd.size
  | none => 0

/-- Embedding of `_find_python_files`. -/
def findPythonFilesOp (tree : List Entry) (s : Option FsPath)
    (pattern : Option String) (includeTests : Bool) : String :=
  match s with
  | none => "Error: No project root set"
  | some root =>
    let files := getPythonFiles tree root
    let files :=
      match pattern with
      | some pat => files.filter (fun f => fnmatch (lastName f) pat)
      | none => files
    let files :=
      if includeTests then files
      else files.filter (fun f => !(f.any (fun part => pyStartsWith part "test")))
    if files.isEmpty then "No Python files found matching criteria"
    else
      "Found " ++ toString files.length ++ " Python files:\n\n" ++
        String.join (files.map (fun f =>
          "  üêç " ++ joinRel (f.drop root.length) ++ " (" ++
            formatFileSize (entrySize tree f) ++ ")\n"))

/-- Embedding of `_analyze_dependencies`: manifest section (first ten
dependencies per manifest) plus, when requested, the import tally sorted by
count descending and capped at twenty. -/
def analyzeDependenciesOp (tree : List Entry) (s : Option FsPath)
    (includeImports : Bool) : String :=
  match s with
  | none => "Error: No project root set"
  | some root =>
    let o := "Project Dependencies Analysis\n" ++ repeatChar 35 '=' ++ "\n\n"
    let depsFiles := analyzeRequirementFiles tree root
    let o := o ++
      (if depsFiles.length > 0 then
        "Dependencies from requirements files:\n" ++
          String.join (depsFiles.map (fun kv =>
            "\n" ++ kv.1 ++ ":\n" ++
              String.join ((kv.2.take 10).map (fun d => "  - " ++ d ++ "\n")) ++
              (if kv.2.length > 10 then
                "  ... and " ++ toString (kv.2.length - 10) ++ " more\n"
              else "")))
      else "")
    let o := o ++
      (if includeImports then
        let imports := analyzeImports tree root
        if imports.length > 0 then
          "\nImported modules (top 20):\n" ++
            String.join
              (((List.insertionSort (fun a b : String × Nat => b.2 ≤ a.2) imports).take 20).map
                (fun kv => "  - " ++ kv.1 ++ " (used " ++ toString kv.2 ++ " times)\n"))
        else ""
      else "")
    o

/-- Embedding of `_search_code` (rendering layer over `searchMatches`). -/
def searchCodeOp (tree : List Entry) (s : Option FsPath) (query : String)
    (cs : Bool) (filePattern : Option String) : String :=
  match s with
  | none => "Error: No project root set"
  | some root =>
    let ms := searchMatches tree root query cs filePattern
    if ms.isEmpty then "No matches found for '" ++ query ++ "'"
    else
      "Found " ++ toString ms.length ++ " matches for '" ++ query ++ "':\n\n" ++
        String.join ((ms.take 50).map (fun m =>
          m.file ++ ":" ++ toString m.line ++ ": " ++ m.content ++ "\n")) ++
        (if ms.length > 50 then
          "\n... and " ++ toString (ms.length - 50) ++ " more matches"
        else "")

/-- Embedding of `_get_project_info`. -/
def getProjectInfoOp (tree : List Entry) (s : Option FsPath) : String :=
  match s with
  | none => "Error: No project root set"
  | some root => generateProjectOverview tree (some root)

/-- C3: with no root configured, every path-accepting operation answers the
defined no-root error, for every filesystem and every argument — the guard
fires before anything touches the tree. -/
theorem C3_noRootGuard :
    ∀ (tree : List Entry) (maxDepth : Nat) (includeHidden : Bool) (isAbs : Bool) (p : FsPath)
      (pattern : Option String) (includeTests includeImports : Bool)
      (query : String) (cs : Bool) (filePattern : Option String),
      exploreProjectStructureOp tree none maxDepth includeHidden = "Error: No project root set" ∧
      readFileOp tree none isAbs p = "Error: No project root set" ∧
      findPythonFilesOp tree none pattern includeTests = "Error: No project root set" ∧
      analyzeDependenciesOp tree none includeImports = "Error: No project root set" ∧
      searchCodeOp tree none query cs filePattern = "Error: No project root set" ∧
      getProjectInfoOp tree none = "Error: No project root set" :=
  fun _ _ _ _ _ _ _ _ _ _ _ => ⟨rfl, rfl, rfl, rfl, rfl, rfl⟩

/-- C8: re-assigning the same root is idempotent on the engine state, so the
overview produced after setting a root and the overview produced after
re-setting that same root on an unchanged tree are character-identical. -/
theorem C8_overviewIdempotent :
    ∀ (tree : List Entry) (p : FsPath) (s : Option FsPath),
      generateProjectOverview tree (setProjectRoot tree p s).1 =
        generateProjectOverview tree (setProjectRoot tree p (setProjectRoot tree p s).1).1 := by
  intro tree p s
  have h : (setProjectRoot tree p (setProjectRoot tree p s).1).1 = (setProjectRoot tree p s).1 := by
    cases hpe : pathExists tree p with
    | false => simp [setProjectRoot, hpe]
    | true =>
      cases hld : lookupDir tree p with
      | none => simp [setProjectRoot, hpe, hld]
      | some cs => simp [setProjectRoot, hpe, hld]
  rw [h]

theorem pyStartsWith_append (a b : String) : pyStartsWith (a ++ b) a = true := by
  unfold pyStartsWith
  have : (a ++ b).toList = a.toList ++ b.toList := by
    simp [String.toList, String.data_append]
  rw [this]
  exact leads_self_append a.toList b.toList

/-- C10: with a root configured, reading an absolute path that is not under
the root always yields an `Error reading file: ...` result — never the
file's contents — because `relative_to` fails after the content is read (or
the read itself fails first). -/
theorem C10_absoluteOutsideRoot :
    ∀ (tree : List Entry) (root p : FsPath),
      listLeadsPath root p = false →
      pyStartsWith (readFileOp tree (some root) true p) "Error reading file: " = true := by
  intro tree root p h
  rw [readFileOp]
  have hpath : (if (true = true) then p else root ++ p) = p := rfl
  rw [hpath]
  cases hr : readFileContent tree p with
  | error e =>
    exact pyStartsWith_append "Error reading file: " (readErrorMsg e)
  | ok content =>
    dsimp only
    rw [relativeTo, h]
    simp only [Bool.false_eq_true, if_false]
    exact pyStartsWith_append "Error reading file: " (relErrText p root)

/-- Tree for the C10 witness: a configured root directory `r` and a
readable, small file `b` outside it. -/
def c10Tree : List Entry := [Entry.dir "r" [], Entry.file "b" 3 "abc"]

/-- Witness for C10: the out-of-root file exists, is readable and under the
size cap, yet the read operation reports an error. -/
theorem C10_absoluteOutsideRoot_witness :
    readFileContent c10Tree ["b"] = .ok "abc" ∧
    pyStartsWith (readFileOp c10Tree (some ["r"]) true ["b"]) "Error reading file: " = true :=
  ⟨rfl, C10_absoluteOutsideRoot c10Tree ["r"] ["b"] (by decide)⟩
